import Mathlib

/-!
# Verification of the carvH quest-platform core (backend/src)

A shallow embedding, in Lean 4, of the identity registry, the wallet
challenge/response authenticator, the per-quest rate limiter and the
submission pipeline of the carvH backend (`identityRegistry.ts`,
`authService.ts`, `rateLimiter.ts`, `submissionService.ts`), together
with theorems settling the specification's testable properties.

Modelling conventions:
* JavaScript `Map<string, T>` values are embedded as functions
  `String → Option T` (`Smap`), with pointwise `set`/`delete`;
  `Map.get` is application.
* JavaScript timestamps (`Date.now()`) are `Nat` milliseconds; ISO
  strings produced by `toISOString` are opaque `String` parameters.
* Exceptions are `Except` results; a method that mutates its object
  returns the updated state explicitly.  A method that throws before
  mutating returns the input state unchanged, matching the source,
  where every `throw` happens before the first mutation.
* Nondeterministic or external inputs (current time, random nonces and
  tokens, base58 decoding, ed25519 signature verification, Solana
  public-key normalisation) are explicit parameters.
-/

namespace CarvH

/-- Embedding of JavaScript `Map<string, α>`: `get` is application. -/
def Smap (α : Type) : Type := String → Option α

/-- `Map.set k v`. -/
def Smap.set {α : Type} (m : Smap α) (k : String) (v : α) : Smap α :=
  fun k2 => if k2 = k then some v else m k2

/-- `Map.delete k`. -/
def Smap.del {α : Type} (m : Smap α) (k : String) : Smap α :=
  fun k2 => if k2 = k then none else m k2

/-- The empty map (`new Map()`). -/
def Smap.empty {α : Type} : Smap α := fun _ => none

/-- JavaScript `String.prototype.toLowerCase` (ASCII-faithful),
written over the character list so that it evaluates by kernel
reduction. -/
def lower (s : String) : String := ⟨s.data.map Char.toLower⟩

/-! ## Identity registry (`identityRegistry.ts`) -/

/-- `IdentityRecord` from `identityRegistry.ts`; the optional `alias`
field is `aliasName` (`alias` is a reserved word in Mathlib),
`undefined` being `none`. -/
structure IdentityRecord where
  wallet : String
  carvId : String
  agentId : String
  aliasName : Option String
  registeredAt : String
  lastVerifiedAt : String
  totalVerifications : Nat
deriving DecidableEq, Repr

/-- The in-memory state of `IdentityRegistry`: the three maps
`walletToIdentity`, `carvIdToWallet`, `agentIdToWallet` (persistence to
disk is a logged side effect with no effect on this state). -/
structure RegState where
  walletToIdentity : Smap IdentityRecord
  carvIdToWallet : Smap String
  agentIdToWallet : Smap String

/-- A fresh registry (`DEFAULT_STORAGE` / no storage file). -/
def RegState.empty : RegState :=
  { walletToIdentity := Smap.empty
    carvIdToWallet := Smap.empty
    agentIdToWallet := Smap.empty }

/-- The three `ConflictError` messages thrown by the registry. -/
inductive RegError where
  /-- "Detected a CARV ID or Agent ID conflict for this wallet." -/
  | walletPairConflict
  /-- "CARV ID is already linked to another wallet." -/
  | carvIdTaken
  /-- "Agent ID is already linked to another wallet." -/
  | agentIdTaken
deriving DecidableEq, Repr

/-- Input record of `assertCanLink` / `registerIdentity`. -/
structure LinkInput where
  wallet : String
  carvId : String
  agentId : String
  aliasName : Option String := none
deriving DecidableEq, Repr

/-- `IdentityRegistry.assertCanLink` (pure: checks without mutating).
The source guards the reverse-index checks with JavaScript truthiness:
`if (carvOwner && carvOwner !== walletKey)` (and the agent analogue),
so an owner stored as the **empty string** is falsy and the conflict
check is skipped; this is modelled by the `≠ ""` conjunct. -/
def assertCanLink (input : LinkInput) (s : RegState) :
    Except RegError (Option IdentityRecord) :=
  let walletKey := lower input.wallet
  let carvKey := lower input.carvId
  let agentKey := lower input.agentId
  match s.walletToIdentity walletKey with
  | some existing =>
    if lower existing.carvId ≠ carvKey ∨ lower existing.agentId ≠ agentKey then
      .error .walletPairConflict
    else
      .ok (some existing)
  | none =>
    match s.carvIdToWallet carvKey with
    | some carvOwner =>
      if carvOwner ≠ "" ∧ carvOwner ≠ walletKey then .error .carvIdTaken
      else
        match s.agentIdToWallet agentKey with
        | some agentOwner =>
          if agentOwner ≠ "" ∧ agentOwner ≠ walletKey then .error .agentIdTaken
          else .ok none
        | none => .ok none
    | none =>
      match s.agentIdToWallet agentKey with
      | some agentOwner =>
        if agentOwner ≠ "" ∧ agentOwner ≠ walletKey then .error .agentIdTaken
        else .ok none
      | none => .ok none

/-- The in-place mutation `touchIdentity` performs on a record:
`record.lastVerifiedAt = new Date().toISOString();
record.totalVerifications += 1`. -/
def touchRecord (r : IdentityRecord) (nowIso : String) : IdentityRecord :=
  { r with lastVerifiedAt := nowIso, totalVerifications := r.totalVerifications + 1 }

/-- `IdentityRegistry.registerIdentity`.  `nowIso` stands for the
`new Date().toISOString()` calls.  Returns the thrown error or the
returned record, together with the registry state afterwards (the
source throws only before its first mutation, so error paths leave the
state unchanged). -/
def registerIdentity (input : LinkInput) (nowIso : String) (s : RegState) :
    Except RegError IdentityRecord × RegState :=
  let walletKey := lower input.wallet
  let carvKey := lower input.carvId
  let agentKey := lower input.agentId
  match s.walletToIdentity walletKey with
  | some existing =>
    if lower existing.carvId ≠ carvKey ∨ lower existing.agentId ≠ agentKey then
      (.error .walletPairConflict, s)
    else
      -- existing.alias = input.alias ?? existing.alias; touchIdentity(existing)
      let updated := touchRecord
        { existing with aliasName := match input.aliasName with
            | some a => some a
            | none => existing.aliasName } nowIso
      (.ok updated, { s with walletToIdentity := s.walletToIdentity.set walletKey updated })
  | none =>
    match assertCanLink input s with
    | .error e => (.error e, s)
    | .ok _ =>
      let record : IdentityRecord :=
        { wallet := input.wallet
          carvId := input.carvId
          agentId := input.agentId
          aliasName := input.aliasName
          registeredAt := nowIso
          lastVerifiedAt := nowIso
          totalVerifications := 1 }
      (.ok record,
        { walletToIdentity := s.walletToIdentity.set walletKey record
          carvIdToWallet := s.carvIdToWallet.set carvKey walletKey
          agentIdToWallet := s.agentIdToWallet.set agentKey walletKey })

/-- `IdentityRegistry.touchIdentity` applied to the record stored for a
wallet (the callers obtain the record from the registry, so the in-place
mutation is reflected in `walletToIdentity`). -/
def touchIdentity (wallet : String) (nowIso : String) (s : RegState) : RegState :=
  match s.walletToIdentity (lower wallet) with
  | some r =>
    { s with walletToIdentity := s.walletToIdentity.set (lower wallet) (touchRecord r nowIso) }
  | none => s

/-- One registry operation of the public mutating/checking interface. -/
inductive RegOp where
  | link (wallet carvId agentId : String)
  | register (wallet carvId agentId : String) (aliasName : Option String) (nowIso : String)
  | touch (wallet : String) (nowIso : String)
deriving DecidableEq, Repr

/-- Run one operation, keeping the resulting state (a thrown error
leaves the state as the method left it). -/
def applyRegOp (s : RegState) (op : RegOp) : RegState :=
  match op with
  | .link _ _ _ => s
  | .register w c a al iso => (registerIdentity ⟨w, c, a, al⟩ iso s).2
  | .touch w iso => touchIdentity w iso s

/-- Run a sequence of registry operations from the empty registry. -/
def runRegOps (ops : List RegOp) : RegState :=
  ops.foldl applyRegOp RegState.empty

/-- Whether a `registerIdentity` operation supplies a non-empty
wallet; an empty wallet stores the empty string in the reverse
indexes, which the truthiness guards of `assertCanLink` then treat as
absent. -/
def RegOp.walletNonempty : RegOp → Bool
  | .register w _ _ _ _ => w != ""
  | _ => true

theorem lower_ne_empty {s : String} (h : s ≠ "") : lower s ≠ "" := by
  intro hc
  apply h
  have hdata := congrArg String.data hc
  simp only [lower] at hdata
  have hnil : s.data = [] := by
    cases hd : s.data with
    | nil => rfl
    | cons c rest => rw [hd] at hdata; simp at hdata
  cases s
  simp_all

/-! ### Registry invariant -/

/-- The internal consistency of the three registry maps: records are
keyed by the lowercased wallet, and the lowercased carv/agent ids of a
stored record point back at its wallet key. -/
structure RegInv (s : RegState) : Prop where
  walletKey : ∀ k r, s.walletToIdentity k = some r → k = lower r.wallet
  carvBack : ∀ k r, s.walletToIdentity k = some r →
    s.carvIdToWallet (lower r.carvId) = some k
  agentBack : ∀ k r, s.walletToIdentity k = some r →
    s.agentIdToWallet (lower r.agentId) = some k
  keyNe : ∀ k r, s.walletToIdentity k = some r → k ≠ ""

/-- No two distinct stored identity records share a carv id or an
agent id, compared case-insensitively. -/
def pairwiseUnique (s : RegState) : Prop :=
  ∀ k1 k2 r1 r2, s.walletToIdentity k1 = some r1 →
    s.walletToIdentity k2 = some r2 → k1 ≠ k2 →
    lower r1.carvId ≠ lower r2.carvId ∧ lower r1.agentId ≠ lower r2.agentId

/-- An input that the uniqueness invariant forbids: it either changes a
known wallet's bound carv/agent pair, or binds a carv id or agent id
that a different wallet already holds. -/
def conflictsWith (s : RegState) (i : LinkInput) : Prop :=
  (∃ r, s.walletToIdentity (lower i.wallet) = some r ∧
    (lower r.carvId ≠ lower i.carvId ∨ lower r.agentId ≠ lower i.agentId)) ∨
  (∃ k r, s.walletToIdentity k = some r ∧ k ≠ lower i.wallet ∧
    (lower r.carvId = lower i.carvId ∨ lower r.agentId = lower i.agentId))

theorem regInv_empty : RegInv RegState.empty := by
  constructor <;> intro k r h <;> simp [RegState.empty, Smap.empty] at h

theorem pairwiseUnique_of_inv {s : RegState} (h : RegInv s) : pairwiseUnique s := by
  intro k1 k2 r1 r2 h1 h2 hne
  constructor
  · intro hcv
    have b1 := h.carvBack k1 r1 h1
    have b2 := h.carvBack k2 r2 h2
    rw [hcv, b2] at b1
    exact hne (Option.some.inj b1).symm
  · intro hav
    have b1 := h.agentBack k1 r1 h1
    have b2 := h.agentBack k2 r2 h2
    rw [hav, b2] at b1
    exact hne (Option.some.inj b1).symm

theorem assertCanLink_ok_owners {s : RegState} {i : LinkInput} {v : Option IdentityRecord}
    (hw : s.walletToIdentity (lower i.wallet) = none)
    (hl : assertCanLink i s = .ok v) :
    (s.carvIdToWallet (lower i.carvId) = none ∨
      s.carvIdToWallet (lower i.carvId) = some "" ∨
      s.carvIdToWallet (lower i.carvId) = some (lower i.wallet)) ∧
    (s.agentIdToWallet (lower i.agentId) = none ∨
      s.agentIdToWallet (lower i.agentId) = some "" ∨
      s.agentIdToWallet (lower i.agentId) = some (lower i.wallet)) := by
  unfold assertCanLink at hl
  simp only [hw] at hl
  cases hc : s.carvIdToWallet (lower i.carvId) <;>
    cases ha : s.agentIdToWallet (lower i.agentId) <;>
      simp only [hc, ha] at hl <;>
      constructor <;> first
        | exact Or.inl rfl
        | (rename_i x
           by_cases hx0 : x = ""
           · exact Or.inr (Or.inl (by rw [hx0]))
           · by_cases hx : x = lower i.wallet
             · exact Or.inr (Or.inr (by rw [hx]))
             · simp [hx0, hx] at hl)
        | (rename_i x y
           by_cases hx0 : x = ""
           · exact Or.inr (Or.inl (by rw [hx0]))
           · by_cases hx : x = lower i.wallet
             · exact Or.inr (Or.inr (by rw [hx]))
             · simp [hx0, hx] at hl)
        | (rename_i x y
           by_cases hy0 : y = ""
           · exact Or.inr (Or.inl (by rw [hy0]))
           · by_cases hy : y = lower i.wallet
             · exact Or.inr (Or.inr (by rw [hy]))
             · by_cases hx0 : x = ""
               · simp [hx0, hy0, hy] at hl
               · by_cases hx : x = lower i.wallet <;>
                   simp [hx0, hx, hy0, hy] at hl)

theorem regInv_registerIdentity {s : RegState} (i : LinkInput) (iso : String)
    (hwne : i.wallet ≠ "") (h : RegInv s) : RegInv (registerIdentity i iso s).2 := by
  unfold registerIdentity
  cases hw : s.walletToIdentity (lower i.wallet) with
  | some existing =>
    simp only [hw]
    by_cases hmm : lower existing.carvId ≠ lower i.carvId ∨
        lower existing.agentId ≠ lower i.agentId
    · simp only [if_pos hmm]
      exact h
    · simp only [if_neg hmm]
      constructor
      · intro k r hkr
        simp only [Smap.set] at hkr
        by_cases hk : k = lower i.wallet
        · simp only [hk, if_pos rfl] at hkr
          cases hkr
          rw [hk]
          simpa [touchRecord] using h.walletKey _ existing hw
        · rw [if_neg hk] at hkr
          exact h.walletKey k r hkr
      · intro k r hkr
        simp only [Smap.set] at hkr
        by_cases hk : k = lower i.wallet
        · simp only [hk, if_pos rfl] at hkr
          cases hkr
          simpa [touchRecord, hk] using h.carvBack _ existing hw
        · rw [if_neg hk] at hkr
          exact h.carvBack k r hkr
      · intro k r hkr
        simp only [Smap.set] at hkr
        by_cases hk : k = lower i.wallet
        · simp only [hk, if_pos rfl] at hkr
          cases hkr
          simpa [touchRecord, hk] using h.agentBack _ existing hw
        · rw [if_neg hk] at hkr
          exact h.agentBack k r hkr
      · intro k r hkr
        simp only [Smap.set] at hkr
        by_cases hk : k = lower i.wallet
        · simp only [hk, if_pos rfl] at hkr
          cases hkr
          rw [hk]
          exact h.keyNe _ existing hw
        · rw [if_neg hk] at hkr
          exact h.keyNe k r hkr
  | none =>
    simp only [hw]
    cases hl : assertCanLink i s with
    | error e => simpa only [hl] using h
    | ok v =>
      simp only [hl]
      obtain ⟨hcarv, hagent⟩ := assertCanLink_ok_owners hw hl
      -- no stored record already uses this carv id or agent id
      have hnoC : ∀ k r, s.walletToIdentity k = some r →
          lower r.carvId ≠ lower i.carvId := by
        intro k r hkr hceq
        have hb := h.carvBack k r hkr
        rw [hceq] at hb
        rcases hcarv with hn | hemp | hsome
        · rw [hn] at hb; cases hb
        · rw [hemp] at hb
          exact h.keyNe k r hkr (Option.some.inj hb).symm
        · rw [hsome] at hb
          have hk := Option.some.inj hb
          rw [hk] at hw
          rw [hw] at hkr
          cases hkr
      have hnoA : ∀ k r, s.walletToIdentity k = some r →
          lower r.agentId ≠ lower i.agentId := by
        intro k r hkr haeq
        have hb := h.agentBack k r hkr
        rw [haeq] at hb
        rcases hagent with hn | hemp | hsome
        · rw [hn] at hb; cases hb
        · rw [hemp] at hb
          exact h.keyNe k r hkr (Option.some.inj hb).symm
        · rw [hsome] at hb
          have hk := Option.some.inj hb
          rw [hk] at hw
          rw [hw] at hkr
          cases hkr
      constructor
      · intro k r hkr
        simp only [Smap.set] at hkr
        by_cases hk : k = lower i.wallet
        · simp only [hk, if_pos rfl] at hkr
          cases hkr
          exact hk
        · rw [if_neg hk] at hkr
          exact h.walletKey k r hkr
      · intro k r hkr
        simp only [Smap.set] at hkr ⊢
        by_cases hk : k = lower i.wallet
        · simp only [hk, if_pos rfl] at hkr
          cases hkr
          simp [hk]
        · rw [if_neg hk] at hkr
          rw [if_neg (hnoC k r hkr)]
          exact h.carvBack k r hkr
      · intro k r hkr
        simp only [Smap.set] at hkr ⊢
        by_cases hk : k = lower i.wallet
        · simp only [hk, if_pos rfl] at hkr
          cases hkr
          simp [hk]
        · rw [if_neg hk] at hkr
          rw [if_neg (hnoA k r hkr)]
          exact h.agentBack k r hkr
      · intro k r hkr
        simp only [Smap.set] at hkr
        by_cases hk : k = lower i.wallet
        · simp only [hk, if_pos rfl] at hkr
          cases hkr
          rw [hk]
          exact lower_ne_empty hwne
        · rw [if_neg hk] at hkr
          exact h.keyNe k r hkr

theorem regInv_touchIdentity {s : RegState} (w iso : String)
    (h : RegInv s) : RegInv (touchIdentity w iso s) := by
  unfold touchIdentity
  cases hw : s.walletToIdentity (lower w) with
  | none => exact h
  | some r0 =>
    constructor
    · intro k r hkr
      simp only [Smap.set] at hkr
      by_cases hk : k = lower w
      · simp only [hk, if_pos rfl] at hkr
        cases hkr
        rw [hk]
        simpa [touchRecord] using h.walletKey _ r0 hw
      · rw [if_neg hk] at hkr
        exact h.walletKey k r hkr
    · intro k r hkr
      simp only [Smap.set] at hkr
      by_cases hk : k = lower w
      · simp only [hk, if_pos rfl] at hkr
        cases hkr
        simpa [touchRecord, hk] using h.carvBack _ r0 hw
      · rw [if_neg hk] at hkr
        exact h.carvBack k r hkr
    · intro k r hkr
      simp only [Smap.set] at hkr
      by_cases hk : k = lower w
      · simp only [hk, if_pos rfl] at hkr
        cases hkr
        simpa [touchRecord, hk] using h.agentBack _ r0 hw
      · rw [if_neg hk] at hkr
        exact h.agentBack k r hkr
    · intro k r hkr
      simp only [Smap.set] at hkr
      by_cases hk : k = lower w
      · simp only [hk, if_pos rfl] at hkr
        cases hkr
        rw [hk]
        exact h.keyNe _ r0 hw
      · rw [if_neg hk] at hkr
        exact h.keyNe k r hkr

theorem regInv_applyRegOp {s : RegState} (op : RegOp)
    (hop : op.walletNonempty = true) (h : RegInv s) :
    RegInv (applyRegOp s op) := by
  cases op with
  | link w c a => exact h
  | register w c a al iso =>
    have hwne : w ≠ "" := by
      simpa [RegOp.walletNonempty] using hop
    exact regInv_registerIdentity _ iso hwne h
  | touch w iso => exact regInv_touchIdentity w iso h

theorem regInv_runRegOps (ops : List RegOp)
    (hops : ops.all RegOp.walletNonempty = true) : RegInv (runRegOps ops) := by
  unfold runRegOps
  have main : ∀ (l : List RegOp) (s : RegState),
      l.all RegOp.walletNonempty = true → RegInv s →
      RegInv (l.foldl applyRegOp s) := by
    intro l
    induction l with
    | nil => intro s _ hs; exact hs
    | cons op rest ih =>
      intro s hall hs
      rw [List.all_cons, Bool.and_eq_true] at hall
      exact ih _ hall.2 (regInv_applyRegOp op hall.1 hs)
  exact main ops RegState.empty hops regInv_empty

/-- `registerIdentity` throws only before its first mutation. -/
theorem registerIdentity_error_state {s : RegState} {i : LinkInput} {iso : String}
    {e : RegError} (h : (registerIdentity i iso s).1 = .error e) :
    (registerIdentity i iso s).2 = s := by
  unfold registerIdentity at h ⊢
  cases hw : s.walletToIdentity (lower i.wallet) with
  | some existing =>
    simp only [hw] at h ⊢
    by_cases hmm : lower existing.carvId ≠ lower i.carvId ∨
        lower existing.agentId ≠ lower i.agentId
    · simp [if_pos hmm]
    · simp only [if_neg hmm] at h
      cases h
  | none =>
    simp only [hw] at h ⊢
    cases hl : assertCanLink i s with
    | error e2 => simp [hl]
    | ok v => simp only [hl] at h; cases h

/-- A conflicting input makes `registerIdentity` throw a conflict and
leaves the registry untouched (given the internal invariant). -/
theorem registerIdentity_conflict_fails {s : RegState} (i : LinkInput) (iso : String)
    (hinv : RegInv s) (hc : conflictsWith s i) :
    (∃ e, (registerIdentity i iso s).1 = .error e) ∧
      (registerIdentity i iso s).2 = s := by
  have hfail : ∃ e, (registerIdentity i iso s).1 = .error e := by
    unfold registerIdentity
    cases hw : s.walletToIdentity (lower i.wallet) with
    | some existing =>
      simp only [hw]
      by_cases hmm : lower existing.carvId ≠ lower i.carvId ∨
          lower existing.agentId ≠ lower i.agentId
      · exact ⟨.walletPairConflict, by simp [if_pos hmm]⟩
      · exfalso
        push_neg at hmm
        obtain ⟨hceq, haeq⟩ := hmm
        rcases hc with ⟨r, hr, hbad⟩ | ⟨k, r, hkr, hkne, hshare⟩
        · rw [hw] at hr
          cases hr
          rcases hbad with hb | hb
          · exact hb hceq
          · exact hb haeq
        · rcases hshare with hsh | hsh
          · have b1 := hinv.carvBack k r hkr
            have b2 := hinv.carvBack (lower i.wallet) existing hw
            rw [hsh, ← hceq, b2] at b1
            exact hkne (Option.some.inj b1).symm
          · have b1 := hinv.agentBack k r hkr
            have b2 := hinv.agentBack (lower i.wallet) existing hw
            rw [hsh, ← haeq, b2] at b1
            exact hkne (Option.some.inj b1).symm
    | none =>
      simp only [hw]
      rcases hc with ⟨r, hr, _⟩ | ⟨k, r, hkr, hkne, hshare⟩
      · rw [hw] at hr; cases hr
      · have hlink : ∃ e, assertCanLink i s = .error e := by
          unfold assertCanLink
          simp only [hw]
          have hk0 : k ≠ "" := hinv.keyNe k r hkr
          rcases hshare with hsh | hsh
          · have hb := hinv.carvBack k r hkr
            rw [hsh] at hb
            simp only [hb]
            exact ⟨.carvIdTaken, by rw [if_pos ⟨hk0, hkne⟩]⟩
          · have hb := hinv.agentBack k r hkr
            rw [hsh] at hb
            cases hcv : s.carvIdToWallet (lower i.carvId) with
            | none =>
              simp only [hcv, hb]
              exact ⟨.agentIdTaken, by rw [if_pos ⟨hk0, hkne⟩]⟩
            | some carvOwner =>
              simp only [hcv]
              by_cases hguard : carvOwner ≠ "" ∧ carvOwner ≠ lower i.wallet
              · exact ⟨.carvIdTaken, by rw [if_pos hguard]⟩
              · rw [if_neg hguard]
                simp only [hb]
                exact ⟨.agentIdTaken, by rw [if_pos ⟨hk0, hkne⟩]⟩
        obtain ⟨e, he⟩ := hlink
        exact ⟨e, by simp [he]⟩
  obtain ⟨e, he⟩ := hfail
  exact ⟨⟨e, he⟩, registerIdentity_error_state he⟩

/-- A conflicting input makes `assertCanLink` throw a conflict (given
the internal invariant); it never mutates. -/
theorem assertCanLink_conflict_fails {s : RegState} (i : LinkInput)
    (hinv : RegInv s) (hc : conflictsWith s i) :
    ∃ e, assertCanLink i s = .error e := by
  have := registerIdentity_conflict_fails i "" hinv hc
  obtain ⟨⟨e, he⟩, -⟩ := this
  unfold registerIdentity at he
  cases hw : s.walletToIdentity (lower i.wallet) with
  | some existing =>
    simp only [hw] at he
    by_cases hmm : lower existing.carvId ≠ lower i.carvId ∨
        lower existing.agentId ≠ lower i.agentId
    · refine ⟨.walletPairConflict, ?_⟩
      unfold assertCanLink
      simp [hw, if_pos hmm]
    · simp only [if_neg hmm] at he
      cases he
  | none =>
    simp only [hw] at he
    cases hl : assertCanLink i s with
    | error e2 => exact ⟨e2, rfl⟩
    | ok v => simp only [hl] at he; cases he

/-! ### Claim C1 -/

/-- **C1** (amended — identity uniqueness invariant for non-empty
wallets): starting from the empty registry, after any sequence of
`assertCanLink` / `registerIdentity` / `touchIdentity` operations in
which every `registerIdentity` supplies a non-empty wallet, no two
identity records share a carv id (platform id) or an agent id
case-insensitively; and a `registerIdentity` or `assertCanLink` call
that would bind a second wallet to an already-bound carv id or agent
id, or change a known wallet's bound pair, fails with a
`ConflictError` (`RegError` has exactly the registry's three conflict
messages) and leaves the registry unchanged.  The restriction is
forced: a registration under the empty wallet stores `""` in the
reverse indexes, which the truthiness guards of `assertCanLink` treat
as absent (see the counterexample). -/
theorem identity_uniqueness_invariant (ops : List RegOp)
    (hops : ops.all RegOp.walletNonempty = true) :
    pairwiseUnique (runRegOps ops) ∧
    (∀ i iso, conflictsWith (runRegOps ops) i →
      (∃ e, (registerIdentity i iso (runRegOps ops)).1 = .error e) ∧
        (registerIdentity i iso (runRegOps ops)).2 = runRegOps ops) ∧
    (∀ i, conflictsWith (runRegOps ops) i →
      ∃ e, assertCanLink i (runRegOps ops) = .error e) := by
  have hinv := regInv_runRegOps ops hops
  exact ⟨pairwiseUnique_of_inv hinv,
    fun i iso hc => registerIdentity_conflict_fails i iso hinv hc,
    fun i hc => assertCanLink_conflict_fails i hinv hc⟩

/-- The poisoned two-registration history: the first registration binds
wallet `""`; the second claims the same carv id (different casing)
from wallet `W2`. -/
def C1cxOps : List RegOp :=
  [RegOp.register "" "carv_aaaa" "agent_aaaa" none "t0",
   RegOp.register "W2" "carv_AAAA" "agent_bbbb" none "t1"]

/-- Counterexample to C1 as stated: after `registerIdentity` with
wallet `""`, the reverse index stores the owner `""`, which the
source's truthiness guard `carvOwner && carvOwner !== walletKey`
treats as absent — so a second wallet binds the already-bound carv id
**without** a `ConflictError`, and the registry ends with two records
sharing `carv_aaaa` case-insensitively. -/
theorem identity_uniqueness_cx :
    (runRegOps C1cxOps).walletToIdentity "" =
      some ⟨"", "carv_aaaa", "agent_aaaa", none, "t0", "t0", 1⟩ ∧
    (runRegOps C1cxOps).walletToIdentity "w2" =
      some ⟨"W2", "carv_AAAA", "agent_bbbb", none, "t1", "t1", 1⟩ ∧
    (registerIdentity ⟨"W2", "carv_AAAA", "agent_bbbb", none⟩ "t1"
        (runRegOps [RegOp.register "" "carv_aaaa" "agent_aaaa" none "t0"])).1 =
      .ok ⟨"W2", "carv_AAAA", "agent_bbbb", none, "t1", "t1", 1⟩ ∧
    ¬ pairwiseUnique (runRegOps C1cxOps) := by
  refine ⟨by decide, by decide, by rfl, ?_⟩
  intro h
  exact (h "" "w2" ⟨"", "carv_aaaa", "agent_aaaa", none, "t0", "t0", 1⟩
      ⟨"W2", "carv_AAAA", "agent_bbbb", none, "t1", "t1", 1⟩
      (by decide) (by decide) (by decide)).1 (by decide)

/-- A one-registration history used to witness C1. -/
def C1ops : List RegOp :=
  [RegOp.register "W1" "carv_aaaa" "agent_aaaa" none "2024-01-01T00:00:00.000Z"]

/-- The record C1ops stores (at key `"w1"`). -/
def C1rec : IdentityRecord :=
  ⟨"W1", "carv_aaaa", "agent_aaaa", none,
    "2024-01-01T00:00:00.000Z", "2024-01-01T00:00:00.000Z", 1⟩

/-- A second wallet claiming the already-bound carv id (different
casing). -/
def C1inp : LinkInput := ⟨"W2", "carv_AAAA", "agent_bbbb", none⟩

theorem identity_uniqueness_invariant_witness :
    (C1ops.all RegOp.walletNonempty = true ∧
      conflictsWith (runRegOps C1ops) C1inp) ∧
    ((∃ e, (registerIdentity C1inp "t1" (runRegOps C1ops)).1 = .error e) ∧
      (registerIdentity C1inp "t1" (runRegOps C1ops)).2 = runRegOps C1ops) := by
  have hc : conflictsWith (runRegOps C1ops) C1inp :=
    Or.inr ⟨"w1", C1rec, by decide, by decide, Or.inl (by decide)⟩
  exact ⟨⟨by decide, hc⟩,
    (identity_uniqueness_invariant C1ops (by decide)).2.1 C1inp "t1" hc⟩

/-! ### Claim C6 -/

/-- **C6** (amended): `registerIdentity` on a known wallet with a
case-insensitively matching carv/agent pair returns an updated record
whose alias is replaced whenever an alias value is supplied (including
the empty string — only an absent alias keeps the stored one), whose
`lastVerifiedAt` is the fresh timestamp, whose `totalVerifications`
grew by exactly one; the wallet map changes only at that wallet's key
(no second record) and the carv/agent index maps are untouched. -/
theorem register_known_wallet_touch (i : LinkInput) (iso : String) (s : RegState)
    (existing : IdentityRecord)
    (hw : s.walletToIdentity (lower i.wallet) = some existing)
    (hc : lower existing.carvId = lower i.carvId)
    (ha : lower existing.agentId = lower i.agentId) :
    ∃ updated,
      (registerIdentity i iso s).1 = .ok updated ∧
      updated.aliasName = (match i.aliasName with
        | some a => some a
        | none => existing.aliasName) ∧
      updated.lastVerifiedAt = iso ∧
      updated.totalVerifications = existing.totalVerifications + 1 ∧
      updated.wallet = existing.wallet ∧
      updated.carvId = existing.carvId ∧
      updated.agentId = existing.agentId ∧
      (registerIdentity i iso s).2.walletToIdentity =
        s.walletToIdentity.set (lower i.wallet) updated ∧
      (registerIdentity i iso s).2.carvIdToWallet = s.carvIdToWallet ∧
      (registerIdentity i iso s).2.agentIdToWallet = s.agentIdToWallet := by
  have hmm : ¬(lower existing.carvId ≠ lower i.carvId ∨
      lower existing.agentId ≠ lower i.agentId) := by
    push_neg
    exact ⟨hc, ha⟩
  unfold registerIdentity
  simp only [hw, if_neg hmm]
  refine ⟨touchRecord { existing with aliasName := match i.aliasName with
    | some a => some a
    | none => existing.aliasName } iso,
    ?_, ?_, ?_, ?_, ?_, ?_, ?_, ?_, ?_, ?_⟩ <;> first | rfl | trivial

/-- Registry holding wallet `W1` with alias `"bob"`. -/
def C6state : RegState :=
  runRegOps [RegOp.register "W1" "carv_aaaa" "agent_aaaa" (some "bob") "t0"]

/-- The record C6state stores at `"w1"`. -/
def C6rec : IdentityRecord :=
  ⟨"W1", "carv_aaaa", "agent_aaaa", some "bob", "t0", "t0", 1⟩

/-- Counterexample to C6 as stated: supplying the **empty string** as
alias does not leave the stored alias unchanged — `input.alias ??
existing.alias` keeps `""` because `??` only tests for
null/undefined.  The stored alias changes from `"bob"` to `""`. -/
theorem register_empty_alias_overwrites :
    (C6state.walletToIdentity "w1" = some C6rec) ∧
    ((registerIdentity ⟨"W1", "carv_aaaa", "agent_aaaa", some ""⟩ "t1"
        C6state).2.walletToIdentity "w1" =
      some ⟨"W1", "carv_aaaa", "agent_aaaa", some "", "t0", "t1", 2⟩) ∧
    (some "" : Option String) ≠ some "bob" := by
  refine ⟨by decide, by decide, by decide⟩

theorem register_known_wallet_touch_witness :
    (C6state.walletToIdentity (lower "W1") = some C6rec) ∧
    (∃ updated,
      (registerIdentity ⟨"W1", "carv_AAAA", "agent_AAAA", none⟩ "t1" C6state).1 =
        .ok updated ∧
      updated.aliasName = (match (none : Option String) with
        | some a => some a
        | none => C6rec.aliasName) ∧
      updated.lastVerifiedAt = "t1" ∧
      updated.totalVerifications = C6rec.totalVerifications + 1 ∧
      updated.wallet = C6rec.wallet ∧
      updated.carvId = C6rec.carvId ∧
      updated.agentId = C6rec.agentId ∧
      (registerIdentity ⟨"W1", "carv_AAAA", "agent_AAAA", none⟩ "t1"
          C6state).2.walletToIdentity =
        C6state.walletToIdentity.set (lower "W1") updated ∧
      (registerIdentity ⟨"W1", "carv_AAAA", "agent_AAAA", none⟩ "t1"
          C6state).2.carvIdToWallet = C6state.carvIdToWallet ∧
      (registerIdentity ⟨"W1", "carv_AAAA", "agent_AAAA", none⟩ "t1"
          C6state).2.agentIdToWallet = C6state.agentIdToWallet) :=
  ⟨by decide,
    register_known_wallet_touch ⟨"W1", "carv_AAAA", "agent_AAAA", none⟩ "t1"
      C6state C6rec (by decide) (by decide) (by decide)⟩

/-! ## Challenge/response authenticator (`authService.ts`) -/

/-- `WalletChallenge` (= `WalletChallengeResponse & {expiresAtTs}`). -/
structure WalletChallenge where
  wallet : String
  carvId : String
  agentId : String
  aliasName : Option String
  nonce : String
  message : String
  expiresAt : String
  expiresAtTs : Nat
deriving DecidableEq, Repr

/-- `WalletSession` from `authService.ts`. -/
structure WalletSession where
  token : String
  wallet : String
  carvId : String
  agentId : String
  aliasName : Option String
  issuedAt : String
  expiresAt : String
deriving DecidableEq, Repr

/-- The mutable state of `AuthService` plus the identity registry it
owns a reference to. -/
structure AuthState where
  challenges : Smap WalletChallenge
  sessions : Smap WalletSession
  registry : RegState

/-- The external/nondeterministic inputs of one `AuthService` call:
Solana public-key normalisation (`new PublicKey(w).toBase58()`, `none`
when the constructor throws), base58 signature decoding, ed25519
verification (`nacl.sign.detached.verify` over message, signature and
wallet key), the clock, and the freshly generated random values. -/
structure AuthEnv where
  normWallet : String → Option String
  decodeOk : String → Bool
  verifySig : String → String → String → Bool
  now : Nat
  nowIso : String
  nonce : String
  token : String
  challengeExpIso : String
  sessionExpIso : String
  challengeTtlMinutes : Nat
  sessionTtlMinutes : Nat

/-- The errors `AuthService` throws (by message). -/
inductive AuthErr where
  /-- "Invalid Solana wallet address." -/
  | invalidWallet
  /-- "CARV ID must use the format carv_xxx." -/
  | invalidCarvId
  /-- "Agent ID must use the format agent_xxx." -/
  | invalidAgentId
  /-- `bs58.decode(input.signature)` threw. -/
  | badSignatureEncoding
  /-- "Challenge not found or expired. Request a new one." -/
  | challengeNotFound
  /-- "Nonce mismatch. Request a fresh challenge." -/
  | nonceMismatch
  /-- "CARV ID or Agent ID does not match the requested challenge." -/
  | idMismatch
  /-- "Challenge expired. Request a new one." -/
  | challengeExpired
  /-- "Signature verification failed." -/
  | signatureInvalid
  /-- A `ConflictError` propagated from the identity registry. -/
  | conflict (e : RegError)
deriving DecidableEq, Repr

/-- The regex `/^carv_[a-z0-9]{4,64}$/i` of `validateCarvId`. -/
def carvIdOk (s : String) : Bool :=
  (s.data.take 5).map Char.toLower = ['c', 'a', 'r', 'v', '_'] &&
    decide (4 ≤ (s.data.drop 5).length) &&
    decide ((s.data.drop 5).length ≤ 64) &&
    (s.data.drop 5).all Char.isAlphanum

/-- The regex `/^agent_[a-z0-9]{4,64}$/i` of `validateAgentId`. -/
def agentIdOk (s : String) : Bool :=
  (s.data.take 6).map Char.toLower = ['a', 'g', 'e', 'n', 't', '_'] &&
    decide (4 ≤ (s.data.drop 6).length) &&
    decide ((s.data.drop 6).length ≤ 64) &&
    (s.data.drop 6).all Char.isAlphanum

/-- `sanitizeAlias`: drop a missing/blank alias, trim, cap at 40. -/
def sanitizeAlias (a : Option String) : Option String :=
  match a with
  | none => none
  | some s =>
    if s = "" then none
    else
      let trimmed := s.trim
      if trimmed = "" then none else some ⟨trimmed.data.take 40⟩

/-- `AuthService.dropExpiredChallenges` (the lazy expiry sweep). -/
def dropExpiredChallenges (now : Nat) (m : Smap WalletChallenge) :
    Smap WalletChallenge :=
  fun k => match m k with
  | some c => if c.expiresAtTs < now then none else some c
  | none => none

/-- Input of `requestChallenge`. -/
structure ChallengeInput where
  wallet : String
  carvId : String
  agentId : String
  aliasName : Option String := none
deriving DecidableEq, Repr

/-- `AuthService.requestChallenge`. -/
def requestChallenge (env : AuthEnv) (input : ChallengeInput) (s : AuthState) :
    Except AuthErr WalletChallenge × AuthState :=
  match env.normWallet input.wallet with
  | none => (.error .invalidWallet, s)
  | some wallet =>
    if !carvIdOk input.carvId then (.error .invalidCarvId, s)
    else if !agentIdOk input.agentId then (.error .invalidAgentId, s)
    else
      let aliasS := sanitizeAlias input.aliasName
      match assertCanLink ⟨wallet, input.carvId, input.agentId, none⟩ s.registry with
      | .error e => (.error (.conflict e), s)
      | .ok identityOpt =>
        let aliasShown := match aliasS with
          | some a => a
          | none => match identityOpt with
            | some r => match r.aliasName with
              | some a => a
              | none => "—"
            | none => "—"
        let message := "AgentQuest · Wallet Login" ++
          "\nWallet: " ++ wallet ++
          "\nCARV ID: " ++ input.carvId ++
          "\nAgent ID: " ++ input.agentId ++
          "\nAlias: " ++ aliasShown ++
          "\nNonce: " ++ env.nonce ++
          "\nIssued At: " ++ env.nowIso
        let expiresAtTs := env.now + env.challengeTtlMinutes * 60000
        let payload : WalletChallenge :=
          { wallet := wallet
            carvId := input.carvId
            agentId := input.agentId
            aliasName := match aliasS with
              | some a => some a
              | none => match identityOpt with
                | some r => r.aliasName
                | none => none
            nonce := env.nonce
            message := message
            expiresAt := env.challengeExpIso
            expiresAtTs := expiresAtTs }
        (.ok payload,
          { s with challenges := s.challenges.set (lower wallet) payload })

/-- Input of `verifyChallenge`. -/
structure VerifyInput where
  wallet : String
  carvId : String
  agentId : String
  signature : String
  nonce : String
deriving DecidableEq, Repr

/-- `AuthService.createSession` (the token is the random value from the
environment). -/
def createSession (env : AuthEnv) (identity : IdentityRecord)
    (sessions : Smap WalletSession) : WalletSession × Smap WalletSession :=
  let session : WalletSession :=
    { token := env.token
      wallet := identity.wallet
      carvId := identity.carvId
      agentId := identity.agentId
      aliasName := identity.aliasName
      issuedAt := env.nowIso
      expiresAt := env.sessionExpIso }
  (session, sessions.set session.token session)

/-- `AuthService.verifyChallenge`, translated check for check in
source order: validations, base58 decode, lazy expiry sweep, lookup,
nonce compare, id compare, expiry check, signature check, registry
registration, session creation, challenge consumption. -/
def verifyChallenge (env : AuthEnv) (input : VerifyInput) (s : AuthState) :
    Except AuthErr WalletSession × AuthState :=
  match env.normWallet input.wallet with
  | none => (.error .invalidWallet, s)
  | some wallet =>
    if !carvIdOk input.carvId then (.error .invalidCarvId, s)
    else if !agentIdOk input.agentId then (.error .invalidAgentId, s)
    else if !env.decodeOk input.signature then (.error .badSignatureEncoding, s)
    else
      let s1 : AuthState :=
        { s with challenges := dropExpiredChallenges env.now s.challenges }
      match s1.challenges (lower wallet) with
      | none => (.error .challengeNotFound, s1)
      | some challenge =>
        if challenge.nonce ≠ input.nonce then (.error .nonceMismatch, s1)
        else if lower challenge.carvId ≠ lower input.carvId ∨
            lower challenge.agentId ≠ lower input.agentId then
          (.error .idMismatch, s1)
        else if challenge.expiresAtTs < env.now then
          (.error .challengeExpired,
            { s1 with challenges := s1.challenges.del (lower wallet) })
        else if !env.verifySig challenge.message input.signature wallet then
          (.error .signatureInvalid, s1)
        else
          match registerIdentity
              ⟨wallet, input.carvId, input.agentId, challenge.aliasName⟩
              env.nowIso s1.registry with
          | (.error e, reg2) => (.error (.conflict e), { s1 with registry := reg2 })
          | (.ok identity, reg2) =>
            let sessionNew := createSession env identity s1.sessions
            (.ok sessionNew.1,
              { challenges := s1.challenges.del (lower wallet)
                sessions := sessionNew.2
                registry := reg2 })

/-- `AuthService.getSession` (lazy session expiry; `parseTime` stands
for `new Date(iso).getTime()`). -/
def getSession (parseTime : String → Int) (now : Nat) (token : String)
    (sessions : Smap WalletSession) : Option WalletSession × Smap WalletSession :=
  match sessions token with
  | none => (none, sessions)
  | some sess =>
    if parseTime sess.expiresAt < (now : Int) then (none, sessions.del token)
    else (some sess, sessions)

/-- A successful `verifyChallenge` passed the input validations and
removed the wallet's pending challenge. -/
theorem verifyChallenge_ok_facts {env : AuthEnv} {input : VerifyInput}
    {s : AuthState} {sess : WalletSession}
    (h : (verifyChallenge env input s).1 = .ok sess) :
    ∃ w, env.normWallet input.wallet = some w ∧
      carvIdOk input.carvId = true ∧ agentIdOk input.agentId = true ∧
      (verifyChallenge env input s).2.challenges (lower w) = none := by
  unfold verifyChallenge at h ⊢
  cases hnw : env.normWallet input.wallet with
  | none => rw [hnw] at h; cases h
  | some w =>
    simp only [hnw] at h ⊢
    refine ⟨w, rfl, ?_⟩
    cases hcv : carvIdOk input.carvId with
    | false => simp [hcv] at h
    | true =>
      cases hag : agentIdOk input.agentId with
      | false => simp [hcv, hag] at h
      | true =>
        refine ⟨rfl, rfl, ?_⟩
        cases hdec : env.decodeOk input.signature with
        | false => simp [hcv, hag, hdec] at h
        | true =>
          simp only [hcv, hag, hdec, Bool.not_true, Bool.false_eq_true,
            if_false] at h ⊢
          cases hch : dropExpiredChallenges env.now s.challenges (lower w) with
          | none => simp [hch] at h
          | some challenge =>
            simp only [hch] at h ⊢
            by_cases hn : challenge.nonce = input.nonce
            · simp only [hn, ne_eq, not_true_eq_false, if_false] at h ⊢
              by_cases hid : lower challenge.carvId ≠ lower input.carvId ∨
                  lower challenge.agentId ≠ lower input.agentId
              · simp [if_pos hid] at h
              · simp only [if_neg hid] at h ⊢
                by_cases hexp : challenge.expiresAtTs < env.now
                · simp [if_pos hexp] at h
                · simp only [if_neg hexp] at h ⊢
                  cases hsig : env.verifySig challenge.message input.signature w with
                  | false => simp [hsig] at h
                  | true =>
                    simp only [hsig, Bool.not_true, Bool.false_eq_true,
                      if_false] at h ⊢
                    cases hri : registerIdentity
                        ⟨w, input.carvId, input.agentId, challenge.aliasName⟩
                        env.nowIso
                        { s with challenges :=
                            dropExpiredChallenges env.now s.challenges }.registry with
                    | mk fst snd =>
                      cases fst with
                      | error e => simp [hri] at h
                      | ok identity =>
                        simp only [hri]
                        simp [Smap.del]
            · simp [hn] at h

/-! ### Claim C2 -/

/-- **C2** (amended): a pending challenge whose `expiresAt` is already
past at call time is removed by the lazy sweep `dropExpiredChallenges`
**before** the lookup, so `verifyChallenge` fails with the
not-found error ("Challenge not found or expired"), not with the
expired error — whatever the nonce, ids and signature are. -/
theorem verify_expired_challenge_fails_not_found
    (env : AuthEnv) (input : VerifyInput) (s : AuthState) (w : String)
    (c : WalletChallenge)
    (hw : env.normWallet input.wallet = some w)
    (hcv : carvIdOk input.carvId = true)
    (hag : agentIdOk input.agentId = true)
    (hdec : env.decodeOk input.signature = true)
    (hch : s.challenges (lower w) = some c)
    (hexp : c.expiresAtTs < env.now) :
    (verifyChallenge env input s).1 = .error .challengeNotFound := by
  have hswept : dropExpiredChallenges env.now s.challenges (lower w) = none := by
    simp [dropExpiredChallenges, hch, hexp]
  unfold verifyChallenge
  simp [hw, hcv, hag, hdec, hswept]

/-- Environment for the C2/C3/C4 scenarios: identity wallet
normalisation, decodable signature, always-valid signature, clock at
100 ms. -/
def C2env : AuthEnv :=
  { normWallet := some
    decodeOk := fun _ => true
    verifySig := fun _ _ _ => true
    now := 100
    nowIso := "t"
    nonce := "n1"
    token := "tok"
    challengeExpIso := "ce"
    sessionExpIso := "se"
    challengeTtlMinutes := 10
    sessionTtlMinutes := 360 }

/-- A challenge that expired at 50 ms (the clock is at 100 ms). -/
def C2chal : WalletChallenge :=
  { wallet := "W1", carvId := "carv_aaaa", agentId := "agent_aaaa"
    aliasName := none, nonce := "n1", message := "msg"
    expiresAt := "e", expiresAtTs := 50 }

/-- State holding only the expired challenge for wallet `w1`. -/
def C2state : AuthState :=
  { challenges := Smap.empty.set "w1" C2chal
    sessions := Smap.empty
    registry := RegState.empty }

/-- A verify request matching the stored challenge exactly. -/
def C2input : VerifyInput :=
  { wallet := "W1", carvId := "carv_aaaa", agentId := "agent_aaaa"
    signature := "sig", nonce := "n1" }

/-- Counterexample to C2 as stated: nonce, ids match, the signature
verifies, the challenge is expired — yet the error is the not-found
one, not the expired one. -/
theorem verify_expired_challenge_notfound_cx :
    C2chal.nonce = C2input.nonce ∧
    C2env.verifySig C2chal.message C2input.signature "W1" = true ∧
    C2chal.expiresAtTs < C2env.now ∧
    (verifyChallenge C2env C2input C2state).1 = .error .challengeNotFound ∧
    (verifyChallenge C2env C2input C2state).1 ≠ .error .challengeExpired := by
  have h : (verifyChallenge C2env C2input C2state).1 =
      .error .challengeNotFound := by rfl
  refine ⟨rfl, rfl, by decide, h, ?_⟩
  rw [h]
  intro heq
  exact (by decide : AuthErr.challengeNotFound ≠ AuthErr.challengeExpired)
    (Except.error.inj heq)

theorem verify_expired_challenge_fails_not_found_witness :
    (C2env.normWallet C2input.wallet = some "W1" ∧
      carvIdOk C2input.carvId = true ∧ agentIdOk C2input.agentId = true ∧
      C2env.decodeOk C2input.signature = true ∧
      C2state.challenges (lower "W1") = some C2chal ∧
      C2chal.expiresAtTs < C2env.now) ∧
    (verifyChallenge C2env C2input C2state).1 = .error .challengeNotFound :=
  ⟨⟨rfl, by decide, by decide, rfl, by decide, by decide⟩,
    verify_expired_challenge_fails_not_found C2env C2input C2state "W1" C2chal
      rfl (by decide) (by decide) rfl (by decide) (by decide)⟩

/-! ### Claim C3 -/

/-- **C3** (amended): `verifyChallenge` deletes the found challenge
only on success (the wallet then has no pending challenge); a call
failing with a nonce mismatch, carv/agent-id mismatch or signature
failure leaves the found (non-expired) challenge in place. -/
theorem verify_challenge_retention (env : AuthEnv) (input : VerifyInput)
    (s : AuthState) (w : String)
    (hw : env.normWallet input.wallet = some w) :
    ((∃ sess, (verifyChallenge env input s).1 = .ok sess) →
      (verifyChallenge env input s).2.challenges (lower w) = none) ∧
    (∀ c, s.challenges (lower w) = some c → ¬ c.expiresAtTs < env.now →
      ((verifyChallenge env input s).1 = .error .nonceMismatch ∨
        (verifyChallenge env input s).1 = .error .idMismatch ∨
        (verifyChallenge env input s).1 = .error .signatureInvalid) →
      (verifyChallenge env input s).2.challenges (lower w) = some c) := by
  constructor
  · rintro ⟨sess, hok⟩
    obtain ⟨w2, hw2, -, -, hnone⟩ := verifyChallenge_ok_facts hok
    rw [hw] at hw2
    rw [← Option.some.inj hw2] at hnone
    exact hnone
  · intro c hc hnexp herr
    have hswept : dropExpiredChallenges env.now s.challenges (lower w) = some c := by
      simp [dropExpiredChallenges, hc, hnexp]
    unfold verifyChallenge at herr ⊢
    simp only [hw] at herr ⊢
    cases hcv : carvIdOk input.carvId with
    | false => simp [hcv] at herr
    | true =>
      cases hag : agentIdOk input.agentId with
      | false => simp [hcv, hag] at herr
      | true =>
        cases hdec : env.decodeOk input.signature with
        | false => simp [hcv, hag, hdec] at herr
        | true =>
          simp only [hcv, hag, hdec, Bool.not_true, Bool.false_eq_true,
            if_false, hswept] at herr ⊢
          by_cases hn : c.nonce = input.nonce
          · simp only [hn, ne_eq, not_true_eq_false, if_false] at herr ⊢
            by_cases hid : lower c.carvId ≠ lower input.carvId ∨
                lower c.agentId ≠ lower input.agentId
            · simp [if_pos hid, hswept]
            · simp only [if_neg hid, if_neg hnexp] at herr ⊢
              cases hsig : env.verifySig c.message input.signature w with
              | false => simp [hsig, hswept]
              | true =>
                simp only [hsig, Bool.not_true, Bool.false_eq_true,
                  if_false] at herr
                cases hri : registerIdentity
                    ⟨w, input.carvId, input.agentId, c.aliasName⟩ env.nowIso
                    { s with challenges :=
                        dropExpiredChallenges env.now s.challenges }.registry with
                | mk fst snd =>
                  cases fst with
                  | error e => simp [hri] at herr
                  | ok identity => simp [hri] at herr
          · simp [hn, hswept]

/-- A live (unexpired) challenge for wallet `w1`. -/
def C3chal : WalletChallenge :=
  { wallet := "W1", carvId := "carv_aaaa", agentId := "agent_aaaa"
    aliasName := none, nonce := "n1", message := "msg"
    expiresAt := "e", expiresAtTs := 500 }

/-- State holding only the live challenge for wallet `w1`. -/
def C3state : AuthState :=
  { challenges := Smap.empty.set "w1" C3chal
    sessions := Smap.empty
    registry := RegState.empty }

/-- A verify request whose nonce does not match the stored one. -/
def C3input : VerifyInput :=
  { wallet := "W1", carvId := "carv_aaaa", agentId := "agent_aaaa"
    signature := "sig", nonce := "WRONG" }

/-- Counterexample to C3 as stated: a nonce-mismatch failure finds the
pending challenge but does **not** delete it — after the call the
wallet still has a pending challenge. -/
theorem verify_nonce_mismatch_keeps_challenge_cx :
    C3state.challenges (lower "W1") = some C3chal ∧
    (verifyChallenge C2env C3input C3state).1 = .error .nonceMismatch ∧
    (verifyChallenge C2env C3input C3state).2.challenges (lower "W1") =
      some C3chal := by
  refine ⟨by decide, by rfl, by decide⟩

theorem verify_challenge_retention_witness :
    (C2env.normWallet C3input.wallet = some "W1" ∧
      C3state.challenges (lower "W1") = some C3chal ∧
      ¬ C3chal.expiresAtTs < C2env.now ∧
      (verifyChallenge C2env C3input C3state).1 = .error .nonceMismatch) ∧
    (verifyChallenge C2env C3input C3state).2.challenges (lower "W1") =
      some C3chal :=
  ⟨⟨rfl, by decide, by decide, by rfl⟩,
    (verify_challenge_retention C2env C3input C3state "W1" rfl).2 C3chal
      (by decide) (by decide) (Or.inl (by rfl))⟩

/-! ### Claim C4 -/

/-- **C4**: after a successful `verifyChallenge`, replaying the call
with the same input (same nonce, no intervening `requestChallenge`)
fails with the not-found error, because the consumed challenge was
removed from the pending-challenge map. -/
theorem nonce_single_use (env env2 : AuthEnv) (input : VerifyInput)
    (s : AuthState) (sess : WalletSession)
    (hok : (verifyChallenge env input s).1 = .ok sess)
    (hnw : env2.normWallet input.wallet = env.normWallet input.wallet)
    (hdec : env2.decodeOk input.signature = true) :
    (verifyChallenge env2 input (verifyChallenge env input s).2).1 =
      .error .challengeNotFound := by
  obtain ⟨w, hw, hcv, hag, hnone⟩ := verifyChallenge_ok_facts hok
  set s2 := (verifyChallenge env input s).2 with hs2
  have hswept : dropExpiredChallenges env2.now s2.challenges (lower w) = none := by
    simp [dropExpiredChallenges, hnone]
  rw [hw] at hnw
  unfold verifyChallenge
  simp [hnw, hcv, hag, hdec, hswept]

/-- Registry input for C4's scenario. -/
def C4regIn : LinkInput := ⟨"W1", "carv_aaaa", "agent_aaaa", none⟩

/-- A verify request matching `C3chal` exactly (correct nonce). -/
def C4input : VerifyInput :=
  { wallet := "W1", carvId := "carv_aaaa", agentId := "agent_aaaa"
    signature := "sig", nonce := "n1" }

/-- The session the first (successful) C4 verify call creates. -/
def C4sess : WalletSession :=
  { token := "tok", wallet := "W1", carvId := "carv_aaaa"
    agentId := "agent_aaaa", aliasName := none
    issuedAt := "t", expiresAt := "se" }

theorem nonce_single_use_witness :
    ((verifyChallenge C2env C4input C3state).1 = .ok C4sess ∧
      C2env.normWallet C4input.wallet = C2env.normWallet C4input.wallet ∧
      C2env.decodeOk C4input.signature = true) ∧
    (verifyChallenge C2env C4input
        (verifyChallenge C2env C4input C3state).2).1 =
      .error .challengeNotFound :=
  ⟨⟨by rfl, rfl, rfl⟩,
    nonce_single_use C2env C2env C4input C3state C4sess (by rfl) rfl rfl⟩

/-! ### Claim C10 -/

/-- **C10** (failure atomicity of verification): whenever
`verifyChallenge` fails — for any error, including format validation,
missing challenge, nonce/id mismatch, expiry, signature failure and
registry conflicts — the session map gains no session and the identity
registry is unchanged: `registerIdentity` and `createSession` run only
after every check has passed, and `registerIdentity` itself throws
before mutating. -/
theorem verify_failure_frame (env : AuthEnv) (input : VerifyInput)
    (s : AuthState) (e : AuthErr)
    (h : (verifyChallenge env input s).1 = .error e) :
    (verifyChallenge env input s).2.sessions = s.sessions ∧
    (verifyChallenge env input s).2.registry = s.registry := by
  unfold verifyChallenge at h ⊢
  cases hnw : env.normWallet input.wallet with
  | none => simp [hnw]
  | some w =>
    simp only [hnw] at h ⊢
    cases hcv : carvIdOk input.carvId with
    | false => simp [hcv]
    | true =>
      cases hag : agentIdOk input.agentId with
      | false => simp [hcv, hag]
      | true =>
        cases hdec : env.decodeOk input.signature with
        | false => simp [hcv, hag, hdec]
        | true =>
          simp only [hcv, hag, hdec, Bool.not_true, Bool.false_eq_true,
            if_false] at h ⊢
          cases hch : dropExpiredChallenges env.now s.challenges (lower w) with
          | none => simp [hch]
          | some challenge =>
            simp only [hch] at h ⊢
            by_cases hn : challenge.nonce = input.nonce
            · simp only [hn, ne_eq, not_true_eq_false, if_false] at h ⊢
              by_cases hid : lower challenge.carvId ≠ lower input.carvId ∨
                  lower challenge.agentId ≠ lower input.agentId
              · simp [if_pos hid]
              · simp only [if_neg hid] at h ⊢
                by_cases hexp : challenge.expiresAtTs < env.now
                · simp [if_pos hexp]
                · simp only [if_neg hexp] at h ⊢
                  cases hsig : env.verifySig challenge.message input.signature w with
                  | false => simp [hsig]
                  | true =>
                    simp only [hsig, Bool.not_true, Bool.false_eq_true,
                      if_false] at h ⊢
                    cases hri : registerIdentity
                        ⟨w, input.carvId, input.agentId, challenge.aliasName⟩
                        env.nowIso
                        { s with challenges :=
                            dropExpiredChallenges env.now s.challenges }.registry with
                    | mk fst snd =>
                      cases fst with
                      | ok identity => simp [hri] at h
                      | error e2 =>
                        have hstate := registerIdentity_error_state
                          (show (registerIdentity
                              ⟨w, input.carvId, input.agentId, challenge.aliasName⟩
                              env.nowIso
                              { s with challenges :=
                                  dropExpiredChallenges env.now s.challenges }.registry).1 =
                            .error e2 by rw [hri])
                        rw [hri] at hstate
                        have hsnd : snd = s.registry := by simpa using hstate
                        simp [hri, hsnd]
            · simp [hn]

theorem verify_failure_frame_witness :
    ((verifyChallenge C2env C3input C3state).1 = .error .nonceMismatch) ∧
    ((verifyChallenge C2env C3input C3state).2.sessions = C3state.sessions ∧
      (verifyChallenge C2env C3input C3state).2.registry = C3state.registry) :=
  ⟨by rfl, verify_failure_frame C2env C3input C3state .nonceMismatch (by rfl)⟩

/-! ## Per-quest rate limiter (`rateLimiter.ts`) -/

/-- The result object of `checkUserQuestRateLimit`. -/
structure RateResult where
  allowed : Bool
  message : Option String
deriving DecidableEq, Repr

/-- `SUBMISSION_WINDOW_MS` (1 minute between attempts per quest/user). -/
def SUBMISSION_WINDOW_MS : Nat := 60000

/-- `checkUserQuestRateLimit`.  `now` is `Date.now()`; the map is the
module-level `recentSubmissions`.  Note the faithful JavaScript
truthiness test `lastSubmission && ...`: a stored timestamp of `0` is
falsy and treated like a missing entry.  Subtraction is over `Int`,
as in JavaScript. -/
def checkUserQuestRateLimit (questId userId : String) (now : Nat)
    (m : Smap Nat) : RateResult × Smap Nat :=
  let key := lower (questId ++ ":" ++ userId)
  match m key with
  | some lastSubmission =>
    if lastSubmission ≠ 0 ∧
        (now : Int) - (lastSubmission : Int) < (SUBMISSION_WINDOW_MS : Int) then
      let waitSeconds := ((SUBMISSION_WINDOW_MS : Int) -
        ((now : Int) - (lastSubmission : Int)) + 999) / 1000
      ({ allowed := false
         message := some ("Wait " ++ toString waitSeconds ++
           " seconds before the next attempt.") }, m)
    else
      ({ allowed := true, message := none }, m.set key now)
  | none => ({ allowed := true, message := none }, m.set key now)

/-- `clearExpiredSubmissions` (the periodic sweep). -/
def clearExpiredSubmissions (now : Nat) (m : Smap Nat) : Smap Nat :=
  fun k => match m k with
  | some ts => if (ts : Int) < (now : Int) - (SUBMISSION_WINDOW_MS : Int)
      then none else some ts
  | none => none

/-! ### Claim C5 -/

/-- **C5** (amended): for a fixed quest/wallet pair, when the first
submit passes the rate-limit check at a time `t ≥ 1` (a recorded
timestamp of exactly `0` is falsy in JavaScript and treated as absent),
a second check within 60 s is refused and does not refresh the stored
timestamp, and a third check at least 60 s after `t` passes. -/
theorem rate_limit_window (questId userId : String) (t t2 t3 : Nat)
    (m : Smap Nat)
    (ht : 1 ≤ t)
    (hfirst : (checkUserQuestRateLimit questId userId t m).1.allowed = true)
    (h21 : t ≤ t2) (h2 : t2 - t < 60000)
    (h3 : 60000 ≤ t3 - t) (h31 : t ≤ t3) :
    ((checkUserQuestRateLimit questId userId t2
        (checkUserQuestRateLimit questId userId t m).2).1.allowed = false) ∧
    ((checkUserQuestRateLimit questId userId t2
        (checkUserQuestRateLimit questId userId t m).2).2 =
      (checkUserQuestRateLimit questId userId t m).2) ∧
    ((checkUserQuestRateLimit questId userId t3
        (checkUserQuestRateLimit questId userId t2
          (checkUserQuestRateLimit questId userId t m).2).2).1.allowed = true) := by
  have hm1 : (checkUserQuestRateLimit questId userId t m).2
      (lower (questId ++ ":" ++ userId)) = some t := by
    unfold checkUserQuestRateLimit at hfirst ⊢
    cases hmk : m (lower (questId ++ ":" ++ userId)) with
    | none => simp [hmk, Smap.set]
    | some last =>
      simp only [hmk] at hfirst ⊢
      by_cases hcond : last ≠ 0 ∧
          (t : Int) - (last : Int) < (SUBMISSION_WINDOW_MS : Int)
      · simp [if_pos hcond] at hfirst
      · simp [if_neg hcond, Smap.set]
  set m1 := (checkUserQuestRateLimit questId userId t m).2 with hm1eq
  have hblocked : t ≠ 0 ∧
      (t2 : Int) - (t : Int) < (SUBMISSION_WINDOW_MS : Int) := by
    constructor
    · omega
    · simp only [SUBMISSION_WINDOW_MS]
      omega
  have hsecond : checkUserQuestRateLimit questId userId t2 m1 =
      ({ allowed := false
         message := some ("Wait " ++ toString (((SUBMISSION_WINDOW_MS : Int) -
           ((t2 : Int) - (t : Int)) + 999) / 1000) ++
           " seconds before the next attempt.") }, m1) := by
    unfold checkUserQuestRateLimit
    simp [hm1, if_pos hblocked]
  refine ⟨by rw [hsecond], by rw [hsecond], ?_⟩
  rw [hsecond]
  have hfree : ¬(t ≠ 0 ∧
      (t3 : Int) - (t : Int) < (SUBMISSION_WINDOW_MS : Int)) := by
    intro hcontra
    have := hcontra.2
    simp only [SUBMISSION_WINDOW_MS] at this
    omega
  unfold checkUserQuestRateLimit
  simp [hm1, if_neg hfree]

/-- Counterexample to C5 as stated: at `t = 0` (the epoch), the first
check records timestamp `0`, which `lastSubmission && ...` treats as
absent, so a second check 30 s later is **allowed** instead of failing
with `RateLimitError`. -/
theorem rate_limit_zero_timestamp_cx :
    ((checkUserQuestRateLimit "q1" "u1" 0 Smap.empty).1.allowed = true) ∧
    ((30000 : Nat) - 0 < 60000) ∧
    ((checkUserQuestRateLimit "q1" "u1" 30000
        (checkUserQuestRateLimit "q1" "u1" 0 Smap.empty).2).1.allowed = true) := by
  refine ⟨by decide, by decide, by decide⟩

theorem rate_limit_window_witness :
    ((1 : Nat) ≤ 1000 ∧
      (checkUserQuestRateLimit "q1" "u1" 1000 Smap.empty).1.allowed = true ∧
      (1000 : Nat) ≤ 30000 ∧ (30000 : Nat) - 1000 < 60000 ∧
      (60000 : Nat) ≤ 61500 - 1000 ∧ (1000 : Nat) ≤ 61500) ∧
    (((checkUserQuestRateLimit "q1" "u1" 30000
        (checkUserQuestRateLimit "q1" "u1" 1000 Smap.empty).2).1.allowed = false) ∧
      ((checkUserQuestRateLimit "q1" "u1" 30000
          (checkUserQuestRateLimit "q1" "u1" 1000 Smap.empty).2).2 =
        (checkUserQuestRateLimit "q1" "u1" 1000 Smap.empty).2) ∧
      ((checkUserQuestRateLimit "q1" "u1" 61500
          (checkUserQuestRateLimit "q1" "u1" 30000
            (checkUserQuestRateLimit "q1" "u1" 1000 Smap.empty).2).2).1.allowed =
        true)) :=
  ⟨⟨by decide, by decide, by decide, by decide, by decide, by decide⟩,
    rate_limit_window "q1" "u1" 1000 30000 61500 Smap.empty
      (by decide) (by decide) (by decide) (by decide) (by decide) (by decide)⟩

/-! ## Quest catalog (`quests.ts`)

Only the fields the submission pipeline reads (`id`, `title`,
`minAnswerLength`, `maxAnswerLength`, `previewLimit`); the descriptive
fields (category, difficulty, description, instructions, criteria,
keywords, recommended time, sample answer) are consumed solely by the
out-of-scope evaluator/frontend. -/

/-- `Quest` (projected to the fields the pipeline reads). -/
structure Quest where
  id : String
  title : String
  minAnswerLength : Nat
  maxAnswerLength : Nat
  previewLimit : Nat
deriving DecidableEq, Repr

/-- The static `quests` array. -/
def quests : List Quest :=
  [⟨"summarize-news", "Summarize a news article in 3 sentences", 160, 1200, 150⟩,
   ⟨"sql-aggregate", "SQL: calculate revenue by country", 80, 1000, 110⟩,
   ⟨"unit-test", "Write a unit test for a function", 120, 1800, 160⟩,
   ⟨"api-error-handling", "API: outline an error-handling plan", 140, 1000, 150⟩,
   ⟨"prompt-guardrails", "Design guardrails for an LLM", 220, 1600, 180⟩,
   ⟨"debug-log", "Find a bug via logs", 110, 900, 150⟩]

/-- `questMap = new Map(quests.map(q => [q.id, q]))`. -/
def questMap (questId : String) : Option Quest :=
  quests.find? (fun q => q.id == questId)

/-! ## Submission pipeline (`submissionService.ts`) -/

/-- JavaScript `String.prototype.trim` over the character list (so
that it evaluates by kernel reduction). -/
def jsTrim (l : List Char) : List Char :=
  ((l.dropWhile Char.isWhitespace).reverse.dropWhile Char.isWhitespace).reverse

/-- `trim` on strings. -/
def trimStr (s : String) : String := ⟨jsTrim s.data⟩

/-- `text.replace(/\s+/g, " ")`: each maximal whitespace run becomes a
single space.  The flag records whether the previous character was
whitespace. -/
def collapseWsGo (prevWs : Bool) : List Char → List Char
  | [] => []
  | c :: rest =>
    if c.isWhitespace then
      if prevWs then collapseWsGo true rest
      else ' ' :: collapseWsGo true rest
    else c :: collapseWsGo false rest

/-- `formatPreview`: collapse whitespace, trim, and if the result is
longer than `limit`, truncate to `limit` characters and append an
ellipsis character. -/
def formatPreview (text : String) (limit : Nat) : String :=
  let sanitized := jsTrim (collapseWsGo false text.data)
  if sanitized.length ≤ limit then ⟨sanitized⟩
  else ⟨sanitized.take limit ++ ['…']⟩

/-- `ProofPayload` as constructed by `buildProofPayload` (field order =
JSON serialization order). -/
structure ProofPayload where
  questId : String
  wallet : String
  carvId : String
  agentId : String
  userId : String
  displayName : String
  score : Nat
  timestamp : String
  answerPreview : String
deriving DecidableEq, Repr

/-- `buildProofPayload` (the `timestamp` parameter stands for the
`new Date().toISOString()` call; `userId` duplicates `displayName` as
in the source literal). -/
def buildProofPayload (quest : Quest) (session : WalletSession)
    (displayName answer : String) (score : Nat) (timestamp : String) :
    ProofPayload :=
  { questId := quest.id
    wallet := session.wallet
    carvId := session.carvId
    agentId := session.agentId
    userId := displayName
    displayName := displayName
    score := score
    timestamp := timestamp
    answerPreview := formatPreview answer quest.previewLimit }

/-! ### Claim C9 -/

/-- **C9** (amended): the `answerPreview` stored in the proof payload
has length at most `previewLimit + 1` — the truncated branch appends
an ellipsis character **after** slicing to `previewLimit`, so a long
answer yields a preview of exactly `previewLimit + 1` characters, one
more than the claimed bound. -/
theorem preview_length_bound (quest : Quest) (session : WalletSession)
    (displayName answer : String) (score : Nat) (timestamp : String) :
    (buildProofPayload quest session displayName answer score
      timestamp).answerPreview.length ≤ quest.previewLimit + 1 := by
  show (formatPreview answer quest.previewLimit).length ≤ quest.previewLimit + 1
  unfold formatPreview
  by_cases h : (jsTrim (collapseWsGo false answer.data)).length ≤ quest.previewLimit
  · simp only [if_pos h]
    calc (String.mk (jsTrim (collapseWsGo false answer.data))).length
        = (jsTrim (collapseWsGo false answer.data)).length := rfl
      _ ≤ quest.previewLimit + 1 := le_trans h (Nat.le_succ _)
  · simp only [if_neg h]
    show ((jsTrim (collapseWsGo false answer.data)).take quest.previewLimit ++
      ['…']).length ≤ quest.previewLimit + 1
    rw [List.length_append, List.length_take]
    simp only [List.length_cons, List.length_nil]
    omega

/-- An answer of 120 non-whitespace characters. -/
def C9answer : String := ⟨List.replicate 120 'a'⟩

/-- The `sql-aggregate` quest (smallest `previewLimit`, 110). -/
def C9quest : Quest :=
  ⟨"sql-aggregate", "SQL: calculate revenue by country", 80, 1000, 110⟩

/-- A session for the C9/C7 scenarios. -/
def C9sess : WalletSession :=
  { token := "token12345", wallet := "W1", carvId := "carv_aaaa"
    agentId := "agent_aaaa", aliasName := none
    issuedAt := "t0", expiresAt := "t9" }

set_option maxRecDepth 4000 in
/-- Counterexample to C9 as stated: for the `sql-aggregate` quest
(`previewLimit = 110`) and a 120-character answer, the stored preview
has 111 characters — more than the quest's preview limit. -/
theorem preview_exceeds_limit_cx :
    questMap "sql-aggregate" = some C9quest ∧
    (buildProofPayload C9quest C9sess "d" C9answer 50
        "ts").answerPreview.length = 111 ∧
    ¬ (buildProofPayload C9quest C9sess "d" C9answer 50
        "ts").answerPreview.length ≤ C9quest.previewLimit := by
  refine ⟨by decide, by decide, by decide⟩

/-! ### Canonical serialization and hashing
(`JSON.stringify(payload)` then
`crypto.createHash("sha256").update(raw).digest("hex")`). -/

/-- Lower-case hexadecimal digit. -/
def hexDigit (n : Nat) : Char :=
  if n < 10 then Char.ofNat (48 + n) else Char.ofNat (97 + n - 10)

/-- JSON string escaping as performed by `JSON.stringify`. -/
def escapeChar (c : Char) : List Char :=
  if c = '"' then ['\\', '"']
  else if c = '\\' then ['\\', '\\']
  else if c.toNat = 8 then ['\\', 'b']
  else if c.toNat = 9 then ['\\', 't']
  else if c.toNat = 10 then ['\\', 'n']
  else if c.toNat = 12 then ['\\', 'f']
  else if c.toNat = 13 then ['\\', 'r']
  else if c.toNat < 32 then
    ['\\', 'u', '0', '0', hexDigit (c.toNat / 16), hexDigit (c.toNat % 16)]
  else [c]

/-- A JSON string literal. -/
def jsonString (s : String) : String :=
  ⟨'"' :: (s.data.map escapeChar).flatten ++ ['"']⟩

/-- `serializePayload = JSON.stringify(payload)`: object keys in the
insertion order of the `buildProofPayload` literal. -/
def serializePayload (p : ProofPayload) : String :=
  "\x7b\"questId\":" ++ jsonString p.questId ++
  ",\"wallet\":" ++ jsonString p.wallet ++
  ",\"carvId\":" ++ jsonString p.carvId ++
  ",\"agentId\":" ++ jsonString p.agentId ++
  ",\"userId\":" ++ jsonString p.userId ++
  ",\"displayName\":" ++ jsonString p.displayName ++
  ",\"score\":" ++ toString p.score ++
  ",\"timestamp\":" ++ jsonString p.timestamp ++
  ",\"answerPreview\":" ++ jsonString p.answerPreview ++ "\x7d"

/-- UTF-8 encoding of one character (code point → bytes), as used by
`hash.update(string)`. -/
def utf8Char (c : Char) : List Nat :=
  let n := c.toNat
  if n < 128 then [n]
  else if n < 2048 then [192 + n / 64, 128 + n % 64]
  else if n < 65536 then
    [224 + n / 4096, 128 + (n / 64) % 64, 128 + n % 64]
  else
    [240 + n / 262144, 128 + (n / 4096) % 64, 128 + (n / 64) % 64, 128 + n % 64]

/-- UTF-8 encode a string into bytes. -/
def utf8Encode (s : String) : List Nat := (s.data.map utf8Char).flatten

/-- Truncation to a 32-bit word. -/
def w32 (x : Nat) : Nat := x % 4294967296

/-- 32-bit right rotation. -/
def rotr (x n : Nat) : Nat := w32 ((x >>> n) ||| (x <<< (32 - n)))

/-- SHA-256 round constants. -/
def sha256K : List Nat :=
  [1116352408, 1899447441, 3049323471, 3921009573, 961987163,
   1508970993, 2453635748, 2870763221, 3624381080, 310598401,
   607225278, 1426881987, 1925078388, 2162078206, 2614888103,
   3248222580, 3835390401, 4022224774, 264347078, 604807628,
   770255983, 1249150122, 1555081692, 1996064986, 2554220882,
   2821834349, 2952996808, 3210313671, 3336571891, 3584528711,
   113926993, 338241895, 666307205, 773529912, 1294757372,
   1396182291, 1695183700, 1986661051, 2177026350, 2456956037,
   2730485921, 2820302411, 3259730800, 3345764771, 3516065817,
   3600352804, 4094571909, 275423344, 430227734, 506948616,
   659060556, 883997877, 958139571, 1322822218, 1537002063,
   1747873779, 1955562222, 2024104815, 2227730452, 2361852424,
   2428436474, 2756734187, 3204031479, 3329325298]

/-- SHA-256 initial hash values. -/
def sha256H0 : List Nat :=
  [1779033703, 3144134277, 1013904242, 2773480762,
   1359893119, 2600822924, 528734635, 1541459225]

/-- SHA-256 padding: `0x80`, zeros, 64-bit big-endian bit length. -/
def sha256Pad (msg : List Nat) : List Nat :=
  let len := msg.length
  let bitLen := len * 8
  let padZeros := (119 - len % 64) % 64
  msg ++ [128] ++ List.replicate padZeros 0 ++
    (List.range 8).map (fun i => (bitLen >>> ((7 - i) * 8)) % 256)

/-- Split into 64-byte chunks (fuel keeps the recursion structural). -/
def chunks64Go : Nat → List Nat → List (List Nat)
  | 0, _ => []
  | _, [] => []
  | fuel + 1, l => l.take 64 :: chunks64Go fuel (l.drop 64)

/-- Split into 64-byte chunks. -/
def chunks64 (l : List Nat) : List (List Nat) :=
  chunks64Go (l.length / 64 + 1) l

/-- Extend the 16-word message schedule to 64 words. -/
def sha256Extend : Nat → List Nat → List Nat
  | 0, w => w
  | steps + 1, w =>
    let n := w.length
    let s0 :=
      let x := w.getD (n - 15) 0
      w32 (rotr x 7 ^^^ rotr x 18 ^^^ (x >>> 3))
    let s1 :=
      let x := w.getD (n - 2) 0
      w32 (rotr x 17 ^^^ rotr x 19 ^^^ (x >>> 10))
    sha256Extend steps (w ++ [w32 (w.getD (n - 16) 0 + s0 + w.getD (n - 7) 0 + s1)])

/-- One SHA-256 compression round applied to the 8-word state. -/
def sha256Round (st : List Nat) (kw : Nat × Nat) : List Nat :=
  let a := st.getD 0 0
  let b := st.getD 1 0
  let c := st.getD 2 0
  let d := st.getD 3 0
  let e := st.getD 4 0
  let f := st.getD 5 0
  let g := st.getD 6 0
  let h := st.getD 7 0
  let s1 := w32 (rotr e 6 ^^^ rotr e 11 ^^^ rotr e 25)
  let ch := w32 ((e &&& f) ^^^ ((4294967295 ^^^ e) &&& g))
  let t1 := w32 (h + s1 + ch + kw.1 + kw.2)
  let s0 := w32 (rotr a 2 ^^^ rotr a 13 ^^^ rotr a 22)
  let mj := w32 ((a &&& b) ^^^ (a &&& c) ^^^ (b &&& c))
  let t2 := w32 (s0 + mj)
  [w32 (t1 + t2), a, b, c, w32 (d + t1), e, f, g]

/-- Process one 64-byte chunk. -/
def sha256Chunk (h : List Nat) (chunk : List Nat) : List Nat :=
  let w0 := (List.range 16).map (fun i =>
    (chunk.getD (4 * i) 0) <<< 24 + (chunk.getD (4 * i + 1) 0) <<< 16 +
    (chunk.getD (4 * i + 2) 0) <<< 8 + chunk.getD (4 * i + 3) 0)
  let w := sha256Extend 48 w0
  let fin := (sha256K.zip w).foldl sha256Round h
  (List.range 8).map (fun i => w32 (h.getD i 0 + fin.getD i 0))

/-- SHA-256 of a byte list. -/
def sha256 (msg : List Nat) : List Nat :=
  let hFinal := (chunks64 (sha256Pad msg)).foldl sha256Chunk sha256H0
  (hFinal.map (fun h => [(h >>> 24) % 256, (h >>> 16) % 256,
    (h >>> 8) % 256, h % 256])).flatten

/-- Lower-case hex rendering (`digest("hex")`). -/
def toHex (bytes : List Nat) : String :=
  ⟨(bytes.map (fun b => [hexDigit (b / 16), hexDigit (b % 16)])).flatten⟩

/-- `hashPayload`: SHA-256 (hex) of the canonical JSON serialization. -/
def hashPayload (p : ProofPayload) : String :=
  toHex (sha256 (utf8Encode (serializePayload p)))

/-! ### Claim C8 -/

/-- Payloads agreeing on all nine stored fields are equal. -/
theorem ProofPayload.ext9 (p q : ProofPayload)
    (h1 : p.questId = q.questId) (h2 : p.wallet = q.wallet)
    (h3 : p.carvId = q.carvId) (h4 : p.agentId = q.agentId)
    (h5 : p.userId = q.userId) (h6 : p.displayName = q.displayName)
    (h7 : p.score = q.score) (h8 : p.timestamp = q.timestamp)
    (h9 : p.answerPreview = q.answerPreview) : p = q := by
  cases p
  cases q
  simp only [ProofPayload.mk.injEq]
  exact ⟨h1, h2, h3, h4, h5, h6, h7, h8, h9⟩

/-- **C8** (proof-hash determinism): two payloads built by
`buildProofPayload` whose `questId`, `wallet`, `carvId`, `agentId`,
`displayName`, `score`, `timestamp` and `answerPreview` coincide have
the same `proofHash` (`userId` always equals `displayName` in built
payloads, so it coincides too); the hash is a pure function of the
canonical serialization. -/
theorem proof_hash_deterministic
    (q1 q2 : Quest) (s1 s2 : WalletSession) (d1 d2 a1 a2 : String)
    (sc1 sc2 : Nat) (t1 t2 : String)
    (h1 : (buildProofPayload q1 s1 d1 a1 sc1 t1).questId =
      (buildProofPayload q2 s2 d2 a2 sc2 t2).questId)
    (h2 : (buildProofPayload q1 s1 d1 a1 sc1 t1).wallet =
      (buildProofPayload q2 s2 d2 a2 sc2 t2).wallet)
    (h3 : (buildProofPayload q1 s1 d1 a1 sc1 t1).carvId =
      (buildProofPayload q2 s2 d2 a2 sc2 t2).carvId)
    (h4 : (buildProofPayload q1 s1 d1 a1 sc1 t1).agentId =
      (buildProofPayload q2 s2 d2 a2 sc2 t2).agentId)
    (h6 : (buildProofPayload q1 s1 d1 a1 sc1 t1).displayName =
      (buildProofPayload q2 s2 d2 a2 sc2 t2).displayName)
    (h7 : (buildProofPayload q1 s1 d1 a1 sc1 t1).score =
      (buildProofPayload q2 s2 d2 a2 sc2 t2).score)
    (h8 : (buildProofPayload q1 s1 d1 a1 sc1 t1).timestamp =
      (buildProofPayload q2 s2 d2 a2 sc2 t2).timestamp)
    (h9 : (buildProofPayload q1 s1 d1 a1 sc1 t1).answerPreview =
      (buildProofPayload q2 s2 d2 a2 sc2 t2).answerPreview) :
    hashPayload (buildProofPayload q1 s1 d1 a1 sc1 t1) =
      hashPayload (buildProofPayload q2 s2 d2 a2 sc2 t2) := by
  have h5 : (buildProofPayload q1 s1 d1 a1 sc1 t1).userId =
      (buildProofPayload q2 s2 d2 a2 sc2 t2).userId := h6
  exact congrArg hashPayload
    (ProofPayload.ext9 _ _ h1 h2 h3 h4 h5 h6 h7 h8 h9)

theorem proof_hash_deterministic_witness :
    ((buildProofPayload C9quest C9sess "d" "an answer" 50 "ts").questId =
      (buildProofPayload C9quest C9sess "d" "an  answer " 50 "ts").questId ∧
     (buildProofPayload C9quest C9sess "d" "an answer" 50 "ts").answerPreview =
      (buildProofPayload C9quest C9sess "d" "an  answer " 50 "ts").answerPreview) ∧
    hashPayload (buildProofPayload C9quest C9sess "d" "an answer" 50 "ts") =
      hashPayload (buildProofPayload C9quest C9sess "d" "an  answer " 50 "ts") :=
  ⟨⟨rfl, by decide⟩,
    proof_hash_deterministic C9quest C9quest C9sess C9sess "d" "d"
      "an answer" "an  answer " 50 50 "ts" "ts"
      rfl rfl rfl rfl rfl rfl rfl (by decide)⟩

/-! ### The submission orchestrator (`SubmissionService.submit`) -/

/-- `MemoResult` from `memoClient.ts` (the ledger client's tagged
result; `submitMemo` never throws). -/
inductive MemoResult where
  | submitted (signature explorerUrl : String) (memoVerified : Bool)
  | skipped (message : String)
  | failed (message : String)
deriving DecidableEq, Repr

/-- The `status` string of a memo result. -/
def MemoResult.statusStr : MemoResult → String
  | .submitted _ _ _ => "submitted"
  | .skipped _ => "skipped"
  | .failed _ => "failed"

/-- `RewardReceipt` from `rewardService.ts` (`distributeReward` never
throws). -/
inductive RewardReceipt where
  | minted (amountRaw amountDisplay signature explorerUrl mint : String)
  | skipped (amountRaw amountDisplay reason mint : String)
  | failed (amountRaw amountDisplay reason mint : String)
deriving DecidableEq, Repr

/-- `EvaluationResult` returned by the external evaluator. -/
structure EvaluationResult where
  score : Nat
  reasoning : String
  usedLLM : Bool
deriving DecidableEq, Repr

/-- `SubmissionResponse` as assembled in `submit` (conditionally
assigned fields are `Option`s). -/
structure SubmissionResponse where
  questId : String
  questTitle : String
  userId : String
  displayName : String
  wallet : String
  carvId : String
  agentId : String
  score : Nat
  reasoning : String
  timestamp : String
  answerPreview : String
  proofHash : String
  memoText : String
  usedLLM : Bool
  onChainStatus : String
  onChainVerified : Option Bool
  transactionSignature : Option String
  explorerUrl : Option String
  onChainMessage : Option String
  reward : Option RewardReceipt
deriving DecidableEq, Repr

/-- The errors `submit` throws (steps 1–6 only). -/
inductive SubErr where
  /-- Joined zod messages from `SubmissionSchema.safeParse`. -/
  | validation (message : String)
  /-- "Session is invalid. Reconnect your wallet." -/
  | invalidSession
  /-- "Quest not found". -/
  | questNotFound
  /-- "Answer must be at least … characters for this quest". -/
  | answerTooShort (minLen : Nat)
  /-- "Answer exceeds the maximum allowed length (…)". -/
  | answerTooLong (maxLen : Nat)
  /-- `RateLimitError` carrying the limiter's message. -/
  | rateLimited (message : Option String)
deriving DecidableEq, Repr

/-- The raw request body (fields already strings, as zod requires). -/
structure RawSubmission where
  questId : String
  sessionToken : String
  displayName : Option String
  answer : String
deriving DecidableEq, Repr

/-- The zod-parsed (trimmed) submission input. -/
structure ParsedSubmission where
  questId : String
  sessionToken : String
  displayName : Option String
  answer : String
deriving DecidableEq, Repr

/-- `SubmissionSchema.safeParse`: trims every field, checks the length
bounds, and joins all violation messages with ". ". -/
def parseSubmission (raw : RawSubmission) : Except SubErr ParsedSubmission :=
  let qv := trimStr raw.questId
  let sv := trimStr raw.sessionToken
  let dv := raw.displayName.map trimStr
  let av := trimStr raw.answer
  let errs :=
    (if qv.length < 1 then ["Select a quest"] else []) ++
    (if sv.length < 10 then ["Reconnect your wallet."] else []) ++
    (match dv with
     | some d =>
       (if d.length < 2 then
         ["Display name must be at least 2 characters long"] else []) ++
       (if d.length > 80 then ["Display name is too long"] else [])
     | none => []) ++
    (if av.length < 10 then ["Answer is too short"] else []) ++
    (if av.length > 4000 then ["Answer is too long"] else [])
  if errs.isEmpty then .ok ⟨qv, sv, dv, av⟩
  else .error (.validation (String.intercalate ". " errs))

/-- `SubmissionHistory.recordSubmission` (bounded per-wallet ring,
most recent first). -/
def recordSubmission (maxEntriesPerUser : Nat) (wallet : String)
    (entry : SubmissionResponse) (st : Smap (List SubmissionResponse)) :
    Smap (List SubmissionResponse) :=
  let key := lower wallet
  st.set key ((entry :: (st key).getD []).take maxEntriesPerUser)

/-- External context of one `submit` call: `Date` parsing for the
session-expiry check, the clock, and the payload timestamp. -/
structure SubmitEnv where
  parseTime : String → Int
  now : Nat
  nowIso : String

/-- `SubmissionService.submit`, translated step for step.  The
evaluator verdict, memo result and reward receipt are parameters (the
external collaborators never throw).  Returns the thrown error or the
response, with the session map, rate-limit map and history threaded
through. -/
def submit (env : SubmitEnv) (raw : RawSubmission)
    (evaluation : EvaluationResult) (memoResult : MemoResult)
    (reward : RewardReceipt) (sessions : Smap WalletSession)
    (rlMap : Smap Nat) (history : Smap (List SubmissionResponse))
    (maxHistory : Nat) :
    Except SubErr SubmissionResponse ×
      Smap WalletSession × Smap Nat × Smap (List SubmissionResponse) :=
  match parseSubmission raw with
  | .error e => (.error e, sessions, rlMap, history)
  | .ok input =>
    match getSession env.parseTime env.now input.sessionToken sessions with
    | (none, sessions2) => (.error .invalidSession, sessions2, rlMap, history)
    | (some session, sessions2) =>
      match questMap input.questId with
      | none => (.error .questNotFound, sessions2, rlMap, history)
      | some quest =>
        if input.answer.length < quest.minAnswerLength then
          (.error (.answerTooShort quest.minAnswerLength), sessions2, rlMap, history)
        else if input.answer.length > quest.maxAnswerLength then
          (.error (.answerTooLong quest.maxAnswerLength), sessions2, rlMap, history)
        else
          -- input.displayName?.trim() || session.alias || session.wallet
          let fallback := match session.aliasName with
            | some a => if a = "" then session.wallet else a
            | none => session.wallet
          let displayName := match input.displayName with
            | some d => if trimStr d = "" then fallback else trimStr d
            | none => fallback
          let rl := checkUserQuestRateLimit quest.id session.wallet env.now rlMap
          if !rl.1.allowed then
            (.error (.rateLimited rl.1.message), sessions2, rl.2, history)
          else
            let proofPayload := buildProofPayload quest session displayName
              input.answer evaluation.score env.nowIso
            let proofHash := hashPayload proofPayload
            let memoText := "AgentQuest:" ++ proofHash
            let response : SubmissionResponse :=
              { questId := quest.id
                questTitle := quest.title
                userId := displayName
                displayName := displayName
                wallet := session.wallet
                carvId := session.carvId
                agentId := session.agentId
                score := evaluation.score
                reasoning := evaluation.reasoning
                timestamp := proofPayload.timestamp
                answerPreview := proofPayload.answerPreview
                proofHash := proofHash
                memoText := memoText
                usedLLM := evaluation.usedLLM
                onChainStatus := memoResult.statusStr
                onChainVerified := match memoResult with
                  | .submitted _ _ v => some v
                  | _ => none
                transactionSignature := match memoResult with
                  | .submitted sig _ _ => some sig
                  | _ => none
                explorerUrl := match memoResult with
                  | .submitted _ url _ => some url
                  | _ => none
                onChainMessage := match memoResult with
                  | .submitted _ _ _ => none
                  | .skipped msg => some msg
                  | .failed msg => some msg
                reward := some reward }
            (.ok response, sessions2, rl.2,
              recordSubmission maxHistory session.wallet response history)

/-! ### Claim C7 -/

/-- **C7**: once steps 1–6 pass (validation, session, quest lookup,
length bounds, rate limit), `submit` succeeds for **every** memo-client
variant and **every** reward variant: the outcomes are folded into the
response as data (`onChainStatus`, signature/explorer fields or
`onChainMessage`, `reward`), never raised as an error. -/
theorem submit_folds_side_channels (env : SubmitEnv) (raw : RawSubmission)
    (evaluation : EvaluationResult) (memoResult : MemoResult)
    (reward : RewardReceipt) (sessions : Smap WalletSession)
    (rlMap : Smap Nat) (history : Smap (List SubmissionResponse))
    (maxHistory : Nat) (input : ParsedSubmission) (session : WalletSession)
    (sessions2 : Smap WalletSession) (quest : Quest)
    (hparse : parseSubmission raw = .ok input)
    (hsess : getSession env.parseTime env.now input.sessionToken sessions =
      (some session, sessions2))
    (hq : questMap input.questId = some quest)
    (hmin : ¬ input.answer.length < quest.minAnswerLength)
    (hmax : ¬ input.answer.length > quest.maxAnswerLength)
    (hrl : (checkUserQuestRateLimit quest.id session.wallet env.now
      rlMap).1.allowed = true) :
    ∃ resp,
      (submit env raw evaluation memoResult reward sessions rlMap history
        maxHistory).1 = .ok resp ∧
      resp.onChainStatus = memoResult.statusStr ∧
      resp.reward = some reward ∧
      (∀ sig url v, memoResult = .submitted sig url v →
        resp.transactionSignature = some sig ∧ resp.explorerUrl = some url ∧
        resp.onChainVerified = some v ∧ resp.onChainMessage = none) ∧
      (∀ msg, memoResult = .skipped msg →
        resp.onChainMessage = some msg ∧ resp.transactionSignature = none) ∧
      (∀ msg, memoResult = .failed msg →
        resp.onChainMessage = some msg ∧ resp.transactionSignature = none) := by
  unfold submit
  simp only [hparse, hsess, hq, if_neg hmin, if_neg hmax, hrl,
    Bool.not_true, Bool.false_eq_true, if_false]
  refine ⟨_, rfl, rfl, rfl, ?_, ?_, ?_⟩
  · intro sig url v heq
    subst heq
    exact ⟨rfl, rfl, rfl, rfl⟩
  · intro msg heq
    subst heq
    exact ⟨rfl, rfl⟩
  · intro msg heq
    subst heq
    exact ⟨rfl, rfl⟩

/-- A 100-character answer for the C7 scenario. -/
def C7answer : String := ⟨List.replicate 100 'a'⟩

/-- The raw request of the C7 scenario. -/
def C7raw : RawSubmission := ⟨"sql-aggregate", "token12345", none, C7answer⟩

/-- Session store holding `C9sess` under its token. -/
def C7sessions : Smap WalletSession := Smap.empty.set "token12345" C9sess

/-- Environment of the C7 scenario (session far from expiring). -/
def C7env : SubmitEnv := ⟨fun _ => 2000000, 1000, "ts"⟩

set_option maxRecDepth 8000 in
theorem submit_folds_side_channels_witness :
    (parseSubmission C7raw = .ok ⟨"sql-aggregate", "token12345", none, C7answer⟩ ∧
      getSession C7env.parseTime C7env.now "token12345" C7sessions =
        (some C9sess, C7sessions) ∧
      questMap "sql-aggregate" = some C9quest ∧
      ¬ C7answer.length < C9quest.minAnswerLength ∧
      ¬ C7answer.length > C9quest.maxAnswerLength ∧
      (checkUserQuestRateLimit C9quest.id C9sess.wallet C7env.now
        Smap.empty).1.allowed = true) ∧
    (∃ resp,
      (submit C7env C7raw ⟨50, "ok", false⟩ (.skipped "disabled")
        (.skipped "0" "0" "r" "m") C7sessions Smap.empty Smap.empty 20).1 =
        .ok resp ∧
      resp.onChainStatus = (MemoResult.skipped "disabled").statusStr ∧
      resp.reward = some (.skipped "0" "0" "r" "m") ∧
      (∀ sig url v, MemoResult.skipped "disabled" = .submitted sig url v →
        resp.transactionSignature = some sig ∧ resp.explorerUrl = some url ∧
        resp.onChainVerified = some v ∧ resp.onChainMessage = none) ∧
      (∀ msg, MemoResult.skipped "disabled" = .skipped msg →
        resp.onChainMessage = some msg ∧ resp.transactionSignature = none) ∧
      (∀ msg, MemoResult.skipped "disabled" = .failed msg →
        resp.onChainMessage = some msg ∧ resp.transactionSignature = none)) :=
  ⟨⟨by rfl, by rfl, by decide, by decide, by decide, by decide⟩,
    submit_folds_side_channels C7env C7raw ⟨50, "ok", false⟩
      (.skipped "disabled") (.skipped "0" "0" "r" "m") C7sessions Smap.empty
      Smap.empty 20 ⟨"sql-aggregate", "token12345", none, C7answer⟩ C9sess
      C7sessions C9quest (by rfl) (by rfl) (by decide) (by decide) (by decide)
      (by decide)⟩

end CarvH
